import Mathlib

/-!
Verification development for the WebRTC peer session core (client/webrtc.go).

The Go code is shallowly embedded as pure Lean functions over an explicit
session state.  Machine-level concerns that the claims need are modelled
explicitly:
* the reset notification channel is a Go buffered channel of capacity 1,
  modelled as a list of pending unit signals; a send on a full buffer with
  no ready receiver blocks, which we model by returning `none`;
* callbacks and methods that can panic return `none` (or a `panicked`
  outcome) at the panic;
* the byte-stream bridge (io.Pipe) is modelled by its contract: the write
  end carries an optional close status, and a Read issued after the write
  end is closed observes that status;
* observable side effects (engine-connection close requests, data-channel
  close requests, transport sends, pipe closes, reset firings) are recorded
  in an append-only event log, in program order.
-/

namespace Snowflake

/-- Close status of the byte-stream bridge: closed cleanly (end of stream)
or closed with an error code. -/
inductive PipeErr where
  | eof
  | errCode (e : Nat)
deriving DecidableEq

/-- Observable events of the session, recorded in program order. -/
inductive Ev where
  | chansClosed
  | pipeCloseReq
  | pipeCloseWithErr (e : Nat)
  | transportCleared
  | dcCloseReq
  | pcCloseReq
  | resetFired
  | sent (b : List Nat)
deriving DecidableEq

/-- State of a WebRTCPeer.  Fields mirror the Go struct: `closed` is the
closed flag, `transport` records whether the DataChannel reference is
non-nil, `pc` whether the PeerConnection is non-nil, `buffer` is the
outbound byte buffer, `resetChan` is the reset channel (`none` models a nil
channel, `some buf` the pending signals of the capacity-1 buffered
channel), `writePipe` whether the write end of the SOCKS pipe is still
held, `pipeSt` the close status of the pipe, `lastReceive` the timestamp
of the last inbound message, and `log` the observable event trace. -/
structure PeerState where
  closed : Bool
  transport : Bool
  pc : Bool
  buffer : List Nat
  resetChan : Option (List Unit)
  writePipe : Bool
  pipeSt : Option PipeErr
  lastReceive : Nat
  log : List Ev
deriving DecidableEq

/-- NewWebRTCPeer: fresh state.  The reset channel is created with
capacity 1 and empty buffer, the pipe is open, no PeerConnection or
DataChannel exists yet. -/
def initPeer : PeerState :=
  { closed := false
    transport := false
    pc := false
    buffer := []
    resetChan := some []
    writePipe := true
    pipeSt := none
    lastReceive := 0
    log := [] }

/-- WebRTCPeer.Reset: return immediately if the reset channel is nil;
otherwise perform a send on the capacity-1 buffered channel.  With no
ready receiver, a Go channel send succeeds exactly when the buffer has
room; a send on a full buffer blocks, modelled as `none`. -/
def Reset (s : PeerState) : Option PeerState :=
  match s.resetChan with
  | none => some s
  | some buf =>
    if buf.length < 1 then
      some { s with resetChan := some (buf ++ [()]), log := s.log ++ [Ev.resetFired] }
    else
      none

/-- WebRTCPeer.WaitForReset: receive from the reset channel; blocks
(`none`) when no signal is pending or the channel is nil. -/
def WaitForReset (s : PeerState) : Option PeerState :=
  match s.resetChan with
  | some (_ :: buf) => some { s with resetChan := some buf }
  | _ => none

/-- WebRTCPeer.cleanup: close the three signal channels, close this side
of the SOCKS pipe (and drop the reference), clear the transport reference
before requesting the DataChannel close, and close the PeerConnection. -/
def cleanup (s : PeerState) : PeerState :=
  let s1 := { s with log := s.log ++ [Ev.chansClosed] }
  let s2 :=
    if s1.writePipe then
      { s1 with
          writePipe := false
          pipeSt := if s1.pipeSt = none then some PipeErr.eof else s1.pipeSt
          log := s1.log ++ [Ev.pipeCloseReq] }
    else s1
  let s3 :=
    if s2.transport then
      { s2 with
          transport := false
          log := s2.log ++ [Ev.transportCleared, Ev.dcCloseReq] }
    else s2
  let s4 :=
    if s3.pc then
      { s3 with pc := false, log := s3.log ++ [Ev.pcCloseReq] }
    else s3
  s4

/-- WebRTCPeer.Close: skip if already closed (returning nil), otherwise
set the closed flag, run cleanup, then fire the reset signal.  Returns the
final state paired with the returned error (always nil); `none` models
blocking inside Reset. -/
def Close (s : PeerState) : Option (PeerState × Option Nat) :=
  if s.closed then some (s, none)
  else (Reset (cleanup { s with closed := true })).map (fun t => (t, none))

/-- Iterate Close n times (stopping, as the program would, if a call
blocks). -/
def closeN : Nat → PeerState → Option PeerState
  | 0, s => some s
  | Nat.succ n, s => (Close s).bind (fun p => closeN n p.1)

/-- WebRTCPeer.Write: buffer the bytes when no transport exists, otherwise
send them on the transport; always report full success. -/
def Write (s : PeerState) (b : List Nat) : PeerState × Nat × Option Nat :=
  if s.transport then
    ({ s with log := s.log ++ [Ev.sent b] }, b.length, none)
  else
    ({ s with buffer := s.buffer ++ b }, b.length, none)

/-- Run a sequence of Write calls, threading the state. -/
def writeAll (s : PeerState) (ws : List (List Nat)) : PeerState :=
  ws.foldl (fun t b => (Write t b).1) s

/-- DataChannel.OnOpen callback: panic (`none`) if a transport already
exists; otherwise flush the buffered bytes (one send of the whole buffer)
when the buffer is non-empty, clear the buffer, then install the
transport. -/
def onOpen (s : PeerState) : Option PeerState :=
  if s.transport then none
  else
    let s1 :=
      if s.buffer.length > 0 then
        { s with log := s.log ++ [Ev.sent s.buffer], buffer := [] }
      else s
    some { s1 with transport := true }

/-- DataChannel.OnClose callback: if the transport reference is already
absent the close was locally initiated and nothing happens; otherwise the
remote closed the channel, so the transport reference is cleared and
Close is invoked. -/
def onClose (s : PeerState) : Option PeerState :=
  if s.transport then
    (Close { s with transport := false, log := s.log ++ [Ev.transportCleared] }).map Prod.fst
  else some s

/-- Outcome of the OnMessage callback: either it returns normally or it
panics (carrying the state at the panic point, so side effects performed
before the panic stay observable). -/
inductive MsgOutcome where
  | ok (s : PeerState)
  | panicked (s : PeerState)
deriving DecidableEq

/-- State carried by a message outcome. -/
def msgSt : MsgOutcome → PeerState
  | MsgOutcome.ok s => s
  | MsgOutcome.panicked s => s

/-- Whether a message outcome is a panic. -/
def isPanicked : MsgOutcome → Bool
  | MsgOutcome.ok _ => false
  | MsgOutcome.panicked _ => true

/-- DataChannel.OnMessage callback.  `wres` is the `(n, err)` result of the
pipe write (decided by the concurrently scheduled pipe reader).  On a write
error the write end of the pipe is closed with that error (io.Pipe keeps
the first close status); a short write (`n` different from the message
length) then panics; otherwise `lastReceive` is updated to `now`. -/
def onMessage (s : PeerState) (msg : List Nat) (now : Nat)
    (wres : Nat × Option Nat) : MsgOutcome :=
  let s1 :=
    match wres.2 with
    | some e =>
      { s with
          pipeSt := if s.pipeSt = none then some (PipeErr.errCode e) else s.pipeSt
          log := s.log ++ [Ev.pipeCloseWithErr e] }
    | none => s
  if wres.1 ≠ msg.length then MsgOutcome.panicked s1
  else MsgOutcome.ok { s1 with lastReceive := now }

/-- Read on the bridge once no write is pending: blocks (`none`) while the
write end is open, and observes the close status once the write end has
been closed.  Modelled from the bridge contract of the spec (io.Pipe). -/
def pipeRead (st : Option PipeErr) : Option PipeErr := st

/-- PeerConnection.OnDataChannel callback: a remote-initiated channel
offer always panics. -/
def onDataChannel (_s : PeerState) : Option PeerState := none

/-- WebRTCPeer.preparePeerConnection: close any old PeerConnection first,
then create a new one; `newPcErr` is the result of the engine call. -/
def preparePeerConnection (s : PeerState) (newPcErr : Option Nat) :
    PeerState × Option Nat :=
  let s1 := if s.pc then { s with pc := false, log := s.log ++ [Ev.pcCloseReq] } else s
  match newPcErr with
  | some e => (s1, some e)
  | none => ({ s1 with pc := true }, none)

/-- WebRTCPeer.establishDataChannel: panic (`none`) if a transport already
exists; otherwise create the DataChannel, returning the engine error if
creation fails. -/
def establishDataChannel (s : PeerState) (createErr : Option Nat) :
    Option (PeerState × Option Nat) :=
  if s.transport then none
  else
    match createErr with
    | some e => some (s, some e)
    | none => some (s, none)

/-- WebRTCPeer.sendOfferToBroker, reduced to the value that reaches the
answer channel: a broker call returning an error or a nil answer delivers
nil (`none`), a successful call delivers the answer. -/
def sendOfferOutcome (res : Option Nat × Option Nat) : Option Nat :=
  match res with
  | (some a, none) => some a
  | _ => none

/-- The answer retry loop of exchangeSDP: keep resubmitting the same offer
(attempt i uses `broker i`) until a non-nil answer arrives; each failed
attempt is followed by a fixed backoff sleep, not modelled.  `fuel` bounds
how many attempts we unfold; `none` means the loop is still running. -/
def retryLoop (broker : Nat → Option Nat × Option Nat) : Nat → Nat → Option Nat
  | _, 0 => none
  | i, Nat.succ f =>
    match sendOfferOutcome (broker i) with
    | some a => some a
    | none => retryLoop broker (i + 1) f

/-- First event observed by exchangeSDP: either the local offer became
ready, or the asynchronous offer/local-description preparation failed. -/
inductive SdpEvent where
  | offer
  | fatalErr (e : Nat)
deriving DecidableEq

/-- WebRTCPeer.exchangeSDP: on a fatal error the session is closed and the
error returned; otherwise the retry loop runs until an answer arrives and
the answer is applied as the remote description, whose injected result is
`setRemoteErr`; an application error is returned without closing the
session. -/
def exchangeSDP (s : PeerState) (ev : SdpEvent)
    (broker : Nat → Option Nat × Option Nat) (fuel : Nat)
    (setRemoteErr : Option Nat) : Option (PeerState × Option Nat) :=
  match ev with
  | SdpEvent.fatalErr e => (Close s).map (fun p => (p.1, some e))
  | SdpEvent.offer =>
    match retryLoop broker 0 fuel with
    | none => none
    | some _ =>
      match setRemoteErr with
      | some e => some (s, some e)
      | none => some (s, none)

/-- Error value standing for the fixed message Connect substitutes when
establishDataChannel fails. -/
def errEstablishFailed : Nat := 1000

/-- WebRTCPeer.Connect: prepare the PeerConnection, establish the
DataChannel (replacing its error by a fixed one), run exchangeSDP, and on
success start the staleness watchdog. -/
def Connect (s : PeerState) (newPcErr createErr : Option Nat) (ev : SdpEvent)
    (broker : Nat → Option Nat × Option Nat) (fuel : Nat)
    (setRemoteErr : Option Nat) : Option (PeerState × Option Nat) :=
  match preparePeerConnection s newPcErr with
  | (s1, some e) => some (s1, some e)
  | (s1, none) =>
    match establishDataChannel s1 createErr with
    | none => none
    | some (s2, some _) => some (s2, some errEstablishFailed)
    | some (s2, none) => exchangeSDP s2 ev broker fuel setRemoteErr

/-- Outcome of the staleness watchdog loop: it either terminated because
it observed the closed flag at poll i, or it invoked Close and terminated
because staleness was detected at poll i. -/
inductive WatchOutcome where
  | sawClosed (i : Nat)
  | stale (i : Nat)
deriving DecidableEq

/-- WebRTCPeer.checkForStaleness, one poll per time unit: at poll i the
clock reads `start + i` and the environment trace `env` gives the closed
flag and `lastReceive` value the watchdog observes.  If the closed flag is
set the loop returns; if the elapsed time since `lastReceive` strictly
exceeds the timeout it invokes Close and returns; otherwise it sleeps one
unit and polls again.  `fuel` bounds the unfolding; `none` means the loop
is still running. -/
def watchRunFrom (env : Nat → Bool × Nat) (timeout start : Nat) :
    Nat → Nat → Option WatchOutcome
  | _, 0 => none
  | i, Nat.succ f =>
    if (env i).1 then some (WatchOutcome.sawClosed i)
    else if timeout < (start + i) - (env i).2 then some (WatchOutcome.stale i)
    else watchRunFrom env timeout start (i + 1) f

/-- Projection keeping only the payloads of transport send events, in
order: the byte stream that arrived at the transport. -/
def sentOf : Ev → Option (List Nat)
  | Ev.sent b => some b
  | _ => none

/-- Concatenated bytes delivered to the transport along a trace. -/
def sentBytes (l : List Ev) : List Nat := (l.filterMap sentOf).flatten

/-- One observable operation of the session, as a relation between states:
every method and callback of the embedding appears as a constructor. -/
inductive Step : PeerState → PeerState → Prop where
  | write (s : PeerState) (b : List Nat) : Step s (Write s b).1
  | close (s : PeerState) (p : PeerState × Option Nat) :
      Close s = some p → Step s p.1
  | reset (s t : PeerState) : Reset s = some t → Step s t
  | waitReset (s t : PeerState) : WaitForReset s = some t → Step s t
  | chanOpen (s t : PeerState) : onOpen s = some t → Step s t
  | chanClosed (s t : PeerState) : onClose s = some t → Step s t
  | message (s : PeerState) (msg : List Nat) (now : Nat) (w : Nat × Option Nat) :
      Step s (msgSt (onMessage s msg now w))
  | prepare (s : PeerState) (e : Option Nat) :
      Step s (preparePeerConnection s e).1
  | establish (s : PeerState) (e : Option Nat) (p : PeerState × Option Nat) :
      establishDataChannel s e = some p → Step s p.1
  | sdp (s : PeerState) (ev : SdpEvent) (broker : Nat → Option Nat × Option Nat)
      (fuel : Nat) (sre : Option Nat) (p : PeerState × Option Nat) :
      exchangeSDP s ev broker fuel sre = some p → Step s p.1

/-- Broker stub that always succeeds with answer 5. -/
def brokerOk : Nat → Option Nat × Option Nat := fun _ => (some 5, none)

/-- Broker stub that fails twice (call error), then succeeds with 42. -/
def brokerFlaky : Nat → Option Nat × Option Nat :=
  fun i => if i < 2 then (none, some 1) else (some 42, none)

/-- cleanup never touches the closed flag. -/
theorem cleanup_closed (s : PeerState) : (cleanup s).closed = s.closed := by
  by_cases h1 : s.writePipe <;> by_cases h2 : s.transport <;> by_cases h3 : s.pc <;>
    simp [cleanup, h1, h2, h3]

/-- cleanup always clears the transport reference. -/
theorem cleanup_transport (s : PeerState) : (cleanup s).transport = false := by
  by_cases h1 : s.writePipe <;> by_cases h2 : s.transport <;> by_cases h3 : s.pc <;>
    simp [cleanup, h1, h2, h3]

/-- cleanup always clears the PeerConnection reference. -/
theorem cleanup_pc (s : PeerState) : (cleanup s).pc = false := by
  by_cases h1 : s.writePipe <;> by_cases h2 : s.transport <;> by_cases h3 : s.pc <;>
    simp [cleanup, h1, h2, h3]

/-- cleanup never touches the reset channel. -/
theorem cleanup_resetChan (s : PeerState) : (cleanup s).resetChan = s.resetChan := by
  by_cases h1 : s.writePipe <;> by_cases h2 : s.transport <;> by_cases h3 : s.pc <;>
    simp [cleanup, h1, h2, h3]

/-- cleanup never touches the outbound buffer. -/
theorem cleanup_buffer (s : PeerState) : (cleanup s).buffer = s.buffer := by
  by_cases h1 : s.writePipe <;> by_cases h2 : s.transport <;> by_cases h3 : s.pc <;>
    simp [cleanup, h1, h2, h3]

/-- Shape of the event trace appended by cleanup, in program order. -/
theorem cleanup_log (s : PeerState) :
    (cleanup s).log = s.log ++ [Ev.chansClosed]
      ++ (if s.writePipe then [Ev.pipeCloseReq] else [])
      ++ (if s.transport then [Ev.transportCleared, Ev.dcCloseReq] else [])
      ++ (if s.pc then [Ev.pcCloseReq] else []) := by
  by_cases h1 : s.writePipe <;> by_cases h2 : s.transport <;> by_cases h3 : s.pc <;>
    simp [cleanup, h1, h2, h3]

/-- Case analysis of a returning Reset: either the channel was nil and
nothing happened, or the slot was empty and exactly one signal was
deposited. -/
theorem Reset_cases (s t : PeerState) (h : Reset s = some t) :
    (s.resetChan = none ∧ t = s) ∨
    (s.resetChan = some [] ∧
      t = { s with resetChan := some [()], log := s.log ++ [Ev.resetFired] }) := by
  cases hr : s.resetChan with
  | none =>
    left
    refine ⟨rfl, ?_⟩
    simp [Reset, hr] at h
    exact h.symm
  | some buf =>
    right
    cases buf with
    | nil =>
      refine ⟨rfl, ?_⟩
      simp [Reset, hr] at h
      exact h.symm
    | cons u rest =>
      exfalso
      simp [Reset, hr] at h

/-- A returning Reset preserves the closed flag. -/
theorem Reset_closed (s t : PeerState) (h : Reset s = some t) :
    t.closed = s.closed := by
  rcases Reset_cases s t h with ⟨_, rfl⟩ | ⟨_, rfl⟩ <;> rfl

/-- A returning Reset preserves the transport reference. -/
theorem Reset_transport (s t : PeerState) (h : Reset s = some t) :
    t.transport = s.transport := by
  rcases Reset_cases s t h with ⟨_, rfl⟩ | ⟨_, rfl⟩ <;> rfl

/-- A returning Reset appends at most a reset event to the log. -/
theorem Reset_log (s t : PeerState) (h : Reset s = some t) :
    t.log = s.log ∨ t.log = s.log ++ [Ev.resetFired] := by
  rcases Reset_cases s t h with ⟨_, rfl⟩ | ⟨_, rfl⟩
  · exact Or.inl rfl
  · exact Or.inr rfl

/-- Close on an already-closed state is the identity and returns nil. -/
theorem Close_of_closed (s : PeerState) (h : s.closed = true) :
    Close s = some (s, none) := by
  simp [Close, h]

/-- A returning Close always returns nil and leaves the closed flag set;
when the state was not yet closed, it also clears the transport. -/
theorem Close_some_spec (s : PeerState) (p : PeerState × Option Nat)
    (h : Close s = some p) :
    p.2 = none ∧ p.1.closed = true ∧ (s.closed = false → p.1.transport = false) := by
  by_cases hc : s.closed
  · rw [Close_of_closed s hc] at h
    cases h
    exact ⟨rfl, hc, fun hf => by rw [hf] at hc; cases hc⟩
  · have hc' : s.closed = false := by simpa using hc
    simp only [Close, hc', Bool.false_eq_true, if_false, Option.map_eq_some'] at h
    obtain ⟨t, ht, hp⟩ := h
    cases hp
    refine ⟨rfl, ?_, fun _ => ?_⟩
    · rw [Reset_closed _ _ ht, cleanup_closed]
    · rw [Reset_transport _ _ ht, cleanup_transport]

/-- A returning Close from a not-yet-closed state is idempotent from then
on: the resulting state is a fixed point. -/
theorem Close_idem_after (s : PeerState) (p : PeerState × Option Nat)
    (h : Close s = some p) : Close p.1 = some (p.1, none) :=
  Close_of_closed p.1 (Close_some_spec s p h).2.1

/-- A returning WaitForReset preserves the closed flag. -/
theorem WaitForReset_closed (s t : PeerState) (h : WaitForReset s = some t) :
    t.closed = s.closed := by
  cases hr : s.resetChan with
  | none => simp [WaitForReset, hr] at h
  | some buf =>
    cases buf with
    | nil => simp [WaitForReset, hr] at h
    | cons u rest =>
      simp [WaitForReset, hr] at h
      rw [← h]

/-- sentBytes distributes over trace concatenation. -/
theorem sentBytes_append (l1 l2 : List Ev) :
    sentBytes (l1 ++ l2) = sentBytes l1 ++ sentBytes l2 := by
  simp [sentBytes, List.filterMap_append]

/-- A single transport send event contributes exactly its payload. -/
theorem sentBytes_single_sent (b : List Nat) : sentBytes [Ev.sent b] = b := by
  simp [sentBytes, sentOf]

/-- A trace of send events contributes the concatenation of payloads. -/
theorem sentBytes_map_sent (vs : List (List Nat)) :
    sentBytes (vs.map Ev.sent) = vs.flatten := by
  induction vs with
  | nil => rfl
  | cons b vs ih =>
    have : (Ev.sent b :: vs.map Ev.sent) = [Ev.sent b] ++ vs.map Ev.sent := rfl
    simp only [List.map_cons, this, sentBytes_append, sentBytes_single_sent, ih,
      List.flatten_cons]

/-- Specification of a returning OnOpen: the transport was absent, the
buffer ends empty, the transport becomes present, the closed flag is
untouched, and exactly the buffered bytes are sent. -/
theorem onOpen_spec (s t : PeerState) (h : onOpen s = some t) :
    s.transport = false ∧ t.closed = s.closed ∧ t.transport = true ∧
    t.buffer = [] ∧ sentBytes t.log = sentBytes s.log ++ s.buffer ∧
    t.resetChan = s.resetChan := by
  by_cases ht : s.transport
  · simp [onOpen, ht] at h
  · have ht' : s.transport = false := by simpa using ht
    by_cases hb : s.buffer.length > 0
    · simp only [onOpen, ht', Bool.false_eq_true, if_false, hb, if_pos,
        Option.some_inj] at h
      rw [← h]
      refine ⟨ht', rfl, rfl, rfl, ?_, rfl⟩
      simp [sentBytes_append, sentBytes_single_sent]
    · have hb' : s.buffer = [] := by
        cases hbuf : s.buffer with
        | nil => rfl
        | cons x xs => rw [hbuf] at hb; simp at hb
      simp only [onOpen, ht', Bool.false_eq_true, if_false, hb, if_neg,
        Option.some_inj] at h
      rw [← h]
      exact ⟨ht', rfl, rfl, hb', by rw [hb']; simp, rfl⟩

/-- OnMessage never touches the closed flag, the transport reference or
the buffer. -/
theorem onMessage_frame (s : PeerState) (msg : List Nat) (now : Nat)
    (w : Nat × Option Nat) :
    (msgSt (onMessage s msg now w)).closed = s.closed ∧
    (msgSt (onMessage s msg now w)).transport = s.transport ∧
    (msgSt (onMessage s msg now w)).buffer = s.buffer := by
  rcases w with ⟨n, we⟩
  cases we <;> by_cases hn : n = msg.length <;> simp [onMessage, msgSt, hn]

/-- A returning establishDataChannel requires an absent transport and
leaves the state unchanged. -/
theorem establish_some (s : PeerState) (e : Option Nat) (p : PeerState × Option Nat)
    (h : establishDataChannel s e = some p) :
    s.transport = false ∧ p.1 = s := by
  by_cases ht : s.transport
  · simp [establishDataChannel, ht] at h
  · have ht' : s.transport = false := by simpa using ht
    refine ⟨ht', ?_⟩
    cases e <;> simp [establishDataChannel, ht'] at h <;> rw [← h]

/-- preparePeerConnection preserves the closed flag. -/
theorem prepare_closed (s : PeerState) (e : Option Nat) :
    ((preparePeerConnection s e).1).closed = s.closed := by
  cases e <;> by_cases hp : s.pc <;> simp [preparePeerConnection, hp]

/-- A returning exchangeSDP preserves a set closed flag. -/
theorem exchangeSDP_closed (s : PeerState) (ev : SdpEvent)
    (broker : Nat → Option Nat × Option Nat) (fuel : Nat) (sre : Option Nat)
    (p : PeerState × Option Nat) (h : exchangeSDP s ev broker fuel sre = some p)
    (hc : s.closed = true) : p.1.closed = true := by
  cases ev with
  | fatalErr e =>
    simp only [exchangeSDP, Option.map_eq_some'] at h
    obtain ⟨q, hq, hpq⟩ := h
    rw [← hpq]
    exact (Close_some_spec s q hq).2.1
  | offer =>
    cases hr : retryLoop broker 0 fuel with
    | none => simp [exchangeSDP, hr] at h
    | some a =>
      cases sre <;> simp [exchangeSDP, hr] at h <;> rw [← h] <;> exact hc

/-- Every operation of the session preserves a set closed flag: the
closed flag is monotonic. -/
theorem Step_closed_mono (s t : PeerState) (hst : Step s t) (h : s.closed = true) :
    t.closed = true := by
  cases hst with
  | write b =>
    by_cases htr : s.transport <;> simp [Write, htr, h]
  | close p hp => exact (Close_some_spec s p hp).2.1
  | reset t hr => rw [Reset_closed s t hr]; exact h
  | waitReset t hr => rw [WaitForReset_closed s t hr]; exact h
  | chanOpen t ho => rw [(onOpen_spec s t ho).2.1]; exact h
  | chanClosed t ho =>
    by_cases htr : s.transport
    · simp only [onClose, htr, if_true, Option.map_eq_some'] at ho
      obtain ⟨q, hq, hpq⟩ := ho
      rw [← hpq]
      exact (Close_some_spec _ q hq).2.1
    · simp [onClose, htr] at ho
      rw [← ho]; exact h
  | message msg now w => rw [(onMessage_frame s msg now w).1]; exact h
  | prepare e => rw [prepare_closed s e]; exact h
  | establish e p hp => rw [(establish_some s e p hp).2]; exact h
  | sdp ev broker fuel sre p hp => exact exchangeSDP_closed s ev broker fuel sre p hp h

/-- Engine-connection close requests recorded by a first Close: exactly
one when a PeerConnection was present, none otherwise. -/
theorem Close_pc_count (s : PeerState) (p : PeerState × Option Nat)
    (h0 : s.closed = false) (h : Close s = some p) :
    p.1.log.count Ev.pcCloseReq
      = s.log.count Ev.pcCloseReq + (if s.pc then 1 else 0) := by
  simp only [Close, h0, Bool.false_eq_true, if_false, Option.map_eq_some'] at h
  obtain ⟨t, ht, hp⟩ := h
  cases hp
  have hl := Reset_log _ _ ht
  have hcl := cleanup_log { s with closed := true }
  rcases hl with hl | hl <;> rw [hl, hcl] <;>
    by_cases h1 : s.writePipe <;> by_cases h2 : s.transport <;> by_cases h3 : s.pc <;>
      simp [h1, h2, h3, List.count_append, List.count_cons, List.count_nil]

/-- Iterating Close from a fixed point stays put. -/
theorem closeN_fixed (s0 : PeerState) (h : Close s0 = some (s0, none)) :
    ∀ m, closeN m s0 = some s0 := by
  intro m
  induction m with
  | zero => rfl
  | succ k ih => simp [closeN, h, ih]

/-- C1 counterexample: the claim states that Reset never blocks even when
no waiter is receiving, and that with multiple unconsumed Resets only the
most recent signal is retained (drop-if-full).  In the code, Reset is a
plain send on the capacity-1 buffered channel with no default branch, so
with one unconsumed signal already in the slot a further Reset blocks
instead of dropping a signal. -/
theorem reset_nonblocking_counterexample :
    Reset { initPeer with resetChan := some [()] } = none := rfl

/-- C1 (amended): Reset returns without sending when the reset channel is
nil; when the capacity-1 slot is empty it never blocks and deposits
exactly one signal; when an unconsumed signal is pending it blocks until
a waiter consumes it; no pending signal is ever dropped or overwritten. -/
theorem reset_slot_behavior (s : PeerState) :
    (s.resetChan = none → Reset s = some s) ∧
    (s.resetChan = some [] → Reset s =
        some { s with resetChan := some [()], log := s.log ++ [Ev.resetFired] }) ∧
    (∀ buf, s.resetChan = some buf → buf ≠ [] → Reset s = none) ∧
    (∀ t, Reset s = some t →
        (s.resetChan = none ∧ t.resetChan = none) ∨
        (s.resetChan = some [] ∧ t.resetChan = some [()])) := by
  refine ⟨?_, ?_, ?_, ?_⟩
  · intro h; simp [Reset, h]
  · intro h; simp [Reset, h]
  · intro buf h hne
    cases buf with
    | nil => exact absurd rfl hne
    | cons u rest => simp [Reset, h]
  · intro t ht
    rcases Reset_cases s t ht with ⟨h1, rfl⟩ | ⟨h1, rfl⟩
    · exact Or.inl ⟨h1, h1⟩
    · exact Or.inr ⟨h1, rfl⟩

/-- Witness for the amended C1 at the freshly constructed peer. -/
theorem reset_slot_behavior_witness :
    Reset initPeer =
      some { initPeer with resetChan := some [()],
                           log := initPeer.log ++ [Ev.resetFired] } :=
  (reset_slot_behavior initPeer).2.1 rfl

/-- C2: Close is idempotent.  A returning Close always returns nil and
leaves a state on which every further Close is a no-op returning nil, so
iterating Close n times (n at least 1) equals calling it once; the first
Close from an unclosed state records exactly one engine-connection close
request when a PeerConnection exists and none otherwise; the closed flag
is monotonic along every operation of the session; and Close on an
already-closed state changes nothing. -/
theorem close_idempotent_monotonic :
    (∀ s p, Close s = some p →
        p.2 = none ∧ p.1.closed = true ∧ Close p.1 = some (p.1, none)) ∧
    (∀ s n, 1 ≤ n → closeN n s = closeN 1 s) ∧
    (∀ s p, s.closed = false → Close s = some p →
        p.1.log.count Ev.pcCloseReq
          = s.log.count Ev.pcCloseReq + (if s.pc then 1 else 0)) ∧
    (∀ s t, Step s t → s.closed = true → t.closed = true) ∧
    (∀ s, s.closed = true → Close s = some (s, none)) := by
  refine ⟨?_, ?_, ?_, ?_, ?_⟩
  · intro s p h
    exact ⟨(Close_some_spec s p h).1, (Close_some_spec s p h).2.1,
      Close_idem_after s p h⟩
  · intro s n hn
    cases n with
    | zero => exact absurd hn (by decide)
    | succ m =>
      cases hc : Close s with
      | none => simp [closeN, hc]
      | some p =>
        have hfix := Close_idem_after s p hc
        simp [closeN, hc, closeN_fixed p.1 hfix m]
  · intro s p h0 h
    exact Close_pc_count s p h0 h
  · intro s t hst h
    exact Step_closed_mono s t hst h
  · intro s h
    exact Close_of_closed s h

/-- Witness for C2 at concrete states: a second Close is a no-op
returning nil, and two Closes equal one. -/
theorem close_idempotent_monotonic_witness :
    Close { initPeer with closed := true }
        = some ({ initPeer with closed := true }, none) ∧
    closeN 2 initPeer = closeN 1 initPeer :=
  ⟨close_idempotent_monotonic.2.2.2.2 { initPeer with closed := true } rfl,
   close_idempotent_monotonic.2.1 initPeer 2 (by decide)⟩

/-- While no transport exists, Write calls only accumulate in the buffer,
in order, and touch nothing else. -/
theorem writeAll_buffering (ws : List (List Nat)) (s : PeerState)
    (h : s.transport = false) :
    (writeAll s ws).transport = false ∧
    (writeAll s ws).buffer = s.buffer ++ ws.flatten ∧
    (writeAll s ws).log = s.log ∧
    (writeAll s ws).closed = s.closed := by
  induction ws generalizing s with
  | nil => exact ⟨h, by simp [writeAll], rfl, rfl⟩
  | cons b ws ih =>
    have hw : (Write s b).1 = { s with buffer := s.buffer ++ b } := by
      simp [Write, h]
    have step : writeAll s (b :: ws) = writeAll { s with buffer := s.buffer ++ b } ws := by
      simp [writeAll, hw]
    rw [step]
    obtain ⟨i1, i2, i3, i4⟩ := ih { s with buffer := s.buffer ++ b } h
    refine ⟨i1, ?_, i3, i4⟩
    rw [i2]
    simp [List.append_assoc]

/-- While a transport exists, Write calls send directly, in order, and
leave the buffer alone. -/
theorem writeAll_sending (vs : List (List Nat)) (s : PeerState)
    (h : s.transport = true) :
    (writeAll s vs).transport = true ∧
    (writeAll s vs).buffer = s.buffer ∧
    (writeAll s vs).log = s.log ++ vs.map Ev.sent ∧
    (writeAll s vs).closed = s.closed := by
  induction vs generalizing s with
  | nil => exact ⟨h, rfl, by simp [writeAll], rfl⟩
  | cons b vs ih =>
    have hw : (Write s b).1 = { s with log := s.log ++ [Ev.sent b] } := by
      simp [Write, h]
    have step : writeAll s (b :: vs)
        = writeAll { s with log := s.log ++ [Ev.sent b] } vs := by
      simp [writeAll, hw]
    rw [step]
    obtain ⟨i1, i2, i3, i4⟩ := ih { s with log := s.log ++ [Ev.sent b] } h
    refine ⟨i1, i2, ?_, i4⟩
    rw [i3]
    simp [List.append_assoc]

/-- C3: writes made while no channel exists are buffered without reaching
the transport; at the absent-to-present transition the accumulated buffer
is flushed exactly once and cleared; afterwards the transport has received
exactly the buffered writes in original order followed by the post-open
writes, with no duplication or loss. -/
theorem buffered_write_order (s0 : PeerState) (ws vs : List (List Nat))
    (h1 : s0.transport = false) (h2 : s0.buffer = []) :
    sentBytes (writeAll s0 ws).log = sentBytes s0.log ∧
    ∃ s2, onOpen (writeAll s0 ws) = some s2 ∧
      s2.buffer = [] ∧ s2.transport = true ∧
      sentBytes s2.log = sentBytes s0.log ++ ws.flatten ∧
      sentBytes (writeAll s2 vs).log
        = sentBytes s0.log ++ ws.flatten ++ vs.flatten ∧
      (writeAll s2 vs).buffer = [] := by
  obtain ⟨ht, hb, hl, _⟩ := writeAll_buffering ws s0 h1
  refine ⟨by rw [hl], ?_⟩
  cases ho : onOpen (writeAll s0 ws) with
  | none =>
    exfalso
    simp [onOpen, ht] at ho
  | some s2 =>
    obtain ⟨_, _, htr2, hb2, hsent, _⟩ := onOpen_spec (writeAll s0 ws) s2 ho
    obtain ⟨_, hb3, hl3, _⟩ := writeAll_sending vs s2 htr2
    refine ⟨s2, rfl, hb2, htr2, ?_, ?_, by rw [hb3]; exact hb2⟩
    · rw [hsent, hl, hb, h2]
      simp
    · rw [hl3, sentBytes_append, sentBytes_map_sent, hsent, hl, hb, h2]
      simp [List.append_assoc]

/-- Witness for C3: two buffered writes, open, then one direct write. -/
theorem buffered_write_order_witness :
    sentBytes (writeAll initPeer [[1, 2], [3]]).log = sentBytes initPeer.log ∧
    ∃ s2, onOpen (writeAll initPeer [[1, 2], [3]]) = some s2 ∧
      s2.buffer = [] ∧ s2.transport = true ∧
      sentBytes s2.log = sentBytes initPeer.log ++ [[1, 2], [3]].flatten ∧
      sentBytes (writeAll s2 [[4]]).log
        = sentBytes initPeer.log ++ [[1, 2], [3]].flatten ++ [[4]].flatten ∧
      (writeAll s2 [[4]]).buffer = [] :=
  buffered_write_order initPeer [[1, 2], [3]] [[4]] rfl rfl

/-- C10: Write always reports full success, returning the input length
and a nil error in every state; while no channel exists the bytes are
appended to the outbound buffer and the call still reports success; and
after a returning first Close a Write still buffers and succeeds. -/
theorem write_always_succeeds (s : PeerState) (b : List Nat) :
    (Write s b).2 = (b.length, none) ∧
    (s.transport = false →
        ((Write s b).1).buffer = s.buffer ++ b ∧
        ((Write s b).1).closed = s.closed) ∧
    (∀ p, s.closed = false → Close s = some p →
        (Write p.1 b).2 = (b.length, none) ∧
        ((Write p.1 b).1).buffer = p.1.buffer ++ b) := by
  refine ⟨?_, ?_, ?_⟩
  · by_cases ht : s.transport <;> simp [Write, ht]
  · intro ht
    simp [Write, ht]
  · intro p h0 hp
    have htr := (Close_some_spec s p hp).2.2 h0
    constructor
    · by_cases ht : p.1.transport <;> simp [Write, ht]
    · simp [Write, htr]

/-- Witness for C10 at the fresh peer with a concrete payload. -/
theorem write_always_succeeds_witness :
    (Write initPeer [7, 8]).2 = (2, none) ∧
    ((Write initPeer [7, 8]).1).buffer = initPeer.buffer ++ [7, 8] ∧
    ((Write initPeer [7, 8]).1).closed = initPeer.closed :=
  ⟨(write_always_succeeds initPeer [7, 8]).1,
   ((write_always_succeeds initPeer [7, 8]).2.1 rfl).1,
   ((write_always_succeeds initPeer [7, 8]).2.1 rfl).2⟩

/-- C4 counterexample: the claim states that every negotiation error,
including a remote-description application failure, closes the session.
At a concrete run where SetRemoteDescription fails with error 7,
exchangeSDP returns that error but the resulting session state is the
unchanged, unclosed input state. -/
theorem negotiation_error_close_counterexample :
    exchangeSDP initPeer SdpEvent.offer brokerOk 1 (some 7)
      = some (initPeer, some 7) ∧ initPeer.closed = false := ⟨rfl, rfl⟩

/-- C4 (amended): a local-description (fatal-error) failure closes the
session and returns that error from exchangeSDP and hence Connect; a
remote-description application failure returns that error from
exchangeSDP and Connect, but the session state is left unchanged and is
not closed by the negotiation code. -/
theorem negotiation_error_paths :
    (∀ s e broker fuel sre p,
        exchangeSDP s (SdpEvent.fatalErr e) broker fuel sre = some p →
        p.1.closed = true ∧ p.2 = some e) ∧
    (∀ s e broker fuel p,
        exchangeSDP s SdpEvent.offer broker fuel (some e) = some p →
        p.1 = s ∧ p.2 = some e) ∧
    (∀ s e broker fuel p,
        Connect s none none SdpEvent.offer broker fuel (some e) = some p →
        p.2 = some e ∧ p.1.closed = s.closed) := by
  refine ⟨?_, ?_, ?_⟩
  · intro s e broker fuel sre p h
    simp only [exchangeSDP, Option.map_eq_some'] at h
    obtain ⟨q, hq, hpq⟩ := h
    rw [← hpq]
    exact ⟨(Close_some_spec s q hq).2.1, rfl⟩
  · intro s e broker fuel p h
    cases hr : retryLoop broker 0 fuel with
    | none => simp [exchangeSDP, hr] at h
    | some a =>
      simp [exchangeSDP, hr] at h
      rw [← h]
      exact ⟨rfl, rfl⟩
  · intro s e broker fuel p h
    by_cases hpc : s.pc <;> by_cases htr : s.transport <;>
      cases hr : retryLoop broker 0 fuel <;>
        simp only [Connect, preparePeerConnection, establishDataChannel, exchangeSDP,
          hpc, htr, hr, if_true, if_false, Bool.false_eq_true, ite_true, ite_false,
          reduceCtorEq, Option.some_inj] at h <;>
        rw [← h] <;> exact ⟨rfl, rfl⟩

/-- Witness for the amended C4 at a concrete failing remote-description
application. -/
theorem negotiation_error_paths_witness :
    (initPeer, (some 3 : Option Nat)).1 = initPeer ∧
    (initPeer, (some 3 : Option Nat)).2 = some 3 :=
  negotiation_error_paths.2.1 initPeer 3 brokerOk 2 (initPeer, some 3) rfl

/-- C5: when delivery of an inbound message to the bridge fails, the write
end of the bridge is closed with that error, a subsequent Read on the
bridge observes exactly that error, and the session itself is not
terminated by the failure: the closed flag is untouched and the only
recorded effect is the pipe close. -/
theorem delivery_failure_closes_pipe (s : PeerState) (msg : List Nat)
    (now n e : Nat) (hopen : s.pipeSt = none) :
    (msgSt (onMessage s msg now (n, some e))).pipeSt = some (PipeErr.errCode e) ∧
    (msgSt (onMessage s msg now (n, some e))).closed = s.closed ∧
    pipeRead (msgSt (onMessage s msg now (n, some e))).pipeSt
      = some (PipeErr.errCode e) ∧
    (msgSt (onMessage s msg now (n, some e))).log
      = s.log ++ [Ev.pipeCloseWithErr e] := by
  by_cases hn : n = msg.length <;> simp [onMessage, msgSt, pipeRead, hn, hopen]

/-- Witness for C5 at a concrete failing delivery. -/
theorem delivery_failure_closes_pipe_witness :
    (msgSt (onMessage initPeer [1] 5 (1, some 9))).pipeSt
      = some (PipeErr.errCode 9) ∧
    (msgSt (onMessage initPeer [1] 5 (1, some 9))).closed = initPeer.closed ∧
    pipeRead (msgSt (onMessage initPeer [1] 5 (1, some 9))).pipeSt
      = some (PipeErr.errCode 9) ∧
    (msgSt (onMessage initPeer [1] 5 (1, some 9))).log
      = initPeer.log ++ [Ev.pipeCloseWithErr 9] :=
  delivery_failure_closes_pipe initPeer [1] 5 1 9 rfl

/-- C6: the closed callback takes no action when the channel reference is
already absent (locally initiated close); when the reference is present it
clears the reference and then invokes session Close; and the local close
path (cleanup) records the clearing of the channel reference immediately
before the underlying channel close request. -/
theorem channel_closed_callback :
    (∀ s, s.transport = false → onClose s = some s) ∧
    (∀ s, s.transport = true → onClose s =
        (Close { s with transport := false,
                        log := s.log ++ [Ev.transportCleared] }).map Prod.fst) ∧
    (∀ s, s.transport = true → ∃ l1 l2,
        (cleanup s).log = l1 ++ Ev.transportCleared :: Ev.dcCloseReq :: l2) := by
  refine ⟨?_, ?_, ?_⟩
  · intro s h
    simp [onClose, h]
  · intro s h
    simp [onClose, h]
  · intro s h
    rw [cleanup_log, h]
    refine ⟨s.log ++ [Ev.chansClosed] ++ (if s.writePipe then [Ev.pipeCloseReq] else []),
      if s.pc then [Ev.pcCloseReq] else [], ?_⟩
    simp [List.append_assoc]

/-- Witness for C6: locally-initiated close is a no-op, and the local
close path clears the reference right before the channel close request. -/
theorem channel_closed_callback_witness :
    onClose initPeer = some initPeer ∧
    ∃ l1 l2, (cleanup { initPeer with transport := true }).log
      = l1 ++ Ev.transportCleared :: Ev.dcCloseReq :: l2 :=
  ⟨channel_closed_callback.1 initPeer rfl,
   channel_closed_callback.2.2 { initPeer with transport := true } rfl⟩

/-- C7: every invariant violation aborts abruptly rather than being
handled: a remote-offered data channel always panics; establishing a
channel while one exists panics; a duplicate channel-open with the
transport already present panics; and a short write of an inbound message
into the bridge panics. -/
theorem invariant_violations_panic :
    (∀ s, onDataChannel s = none) ∧
    (∀ s ce, s.transport = true → establishDataChannel s ce = none) ∧
    (∀ s, s.transport = true → onOpen s = none) ∧
    (∀ s msg now n w, n ≠ msg.length →
        isPanicked (onMessage s msg now (n, w)) = true) := by
  refine ⟨?_, ?_, ?_, ?_⟩
  · intro s
    rfl
  · intro s ce h
    simp [establishDataChannel, h]
  · intro s h
    simp [onOpen, h]
  · intro s msg now n w h
    cases w <;> simp [onMessage, isPanicked, h]

/-- Witness for C7 at concrete violating inputs. -/
theorem invariant_violations_panic_witness :
    onDataChannel initPeer = none ∧
    establishDataChannel { initPeer with transport := true } none = none ∧
    onOpen { initPeer with transport := true } = none ∧
    isPanicked (onMessage initPeer [1, 2] 0 (1, none)) = true :=
  ⟨invariant_violations_panic.1 initPeer,
   invariant_violations_panic.2.1 { initPeer with transport := true } none rfl,
   invariant_violations_panic.2.2.1 { initPeer with transport := true } rfl,
   invariant_violations_panic.2.2.2 initPeer [1, 2] 0 1 none (by decide)⟩

/-- The retry loop reaches the first successful broker attempt when given
enough iterations. -/
theorem retryLoop_success (broker : Nat → Option Nat × Option Nat) (k a : Nat)
    (hk : sendOfferOutcome (broker k) = some a)
    (hfail : ∀ j, j < k → sendOfferOutcome (broker j) = none) :
    ∀ f i, i ≤ k → k - i < f → retryLoop broker i f = some a := by
  intro f
  induction f with
  | zero =>
    intro i hi hf
    exact absurd hf (by omega)
  | succ g ih =>
    intro i hi hf
    by_cases hik : i = k
    · subst hik
      simp [retryLoop, hk]
    · have hlt : i < k := lt_of_le_of_ne hi hik
      have hfi := hfail i hlt
      simp only [retryLoop, hfi]
      exact ih (i + 1) (by omega) (by omega)

/-- C8: the negotiation retry loop never surfaces a broker failure: it
only terminates by returning an answer some attempt actually produced,
and for a broker that fails any finite number of times and then succeeds
the loop terminates with that answer (given enough iterations) and the
SDP exchange completes successfully with no error. -/
theorem broker_retry_behavior :
    (∀ broker i f a, retryLoop broker i f = some a →
        ∃ j, i ≤ j ∧ sendOfferOutcome (broker j) = some a) ∧
    (∀ broker k a, sendOfferOutcome (broker k) = some a →
        (∀ j, j < k → sendOfferOutcome (broker j) = none) →
        ∀ f, k < f → retryLoop broker 0 f = some a) ∧
    (∀ s broker k a, sendOfferOutcome (broker k) = some a →
        (∀ j, j < k → sendOfferOutcome (broker j) = none) →
        ∀ f, k < f →
        exchangeSDP s SdpEvent.offer broker f none = some (s, none)) := by
  refine ⟨?_, ?_, ?_⟩
  · intro broker i f a
    induction f generalizing i with
    | zero =>
      intro h
      simp [retryLoop] at h
    | succ g ih =>
      intro h
      cases hs : sendOfferOutcome (broker i) with
      | some b =>
        simp [retryLoop, hs] at h
        exact ⟨i, Nat.le_refl i, by rw [hs, h]⟩
      | none =>
        simp only [retryLoop, hs] at h
        obtain ⟨j, hj, hjs⟩ := ih (i + 1) h
        exact ⟨j, by omega, hjs⟩
  · intro broker k a hk hfail f hf
    exact retryLoop_success broker k a hk hfail f 0 (Nat.zero_le k) (by omega)
  · intro s broker k a hk hfail f hf
    have hr := retryLoop_success broker k a hk hfail f 0 (Nat.zero_le k) (by omega)
    simp [exchangeSDP, hr]

/-- Witness for C8: a broker failing twice then succeeding with 42 makes
the loop and the exchange succeed. -/
theorem broker_retry_behavior_witness :
    retryLoop brokerFlaky 0 3 = some 42 ∧
    exchangeSDP initPeer SdpEvent.offer brokerFlaky 3 none
      = some (initPeer, none) :=
  ⟨broker_retry_behavior.2.1 brokerFlaky 2 42 rfl (by decide) 3 (by decide),
   broker_retry_behavior.2.2 initPeer brokerFlaky 2 42 rfl (by decide) 3 (by decide)⟩

/-- C9: the watchdog polls once per time unit.  It reports staleness (the
branch that invokes Close and terminates) only at a poll where the closed
flag was unset and the elapsed time since lastReceive strictly exceeded
the timeout; it terminates at any poll where it observes the closed flag;
it detects an observed staleness or closed flag immediately; and along a
trace where every poll sees silence of at most the timeout, the watchdog
never closes the session. -/
theorem watchdog_behavior :
    (∀ env timeout start i f j,
        watchRunFrom env timeout start i f = some (WatchOutcome.stale j) →
        (env j).1 = false ∧ timeout < (start + j) - (env j).2) ∧
    (∀ env timeout start i f j,
        watchRunFrom env timeout start i f = some (WatchOutcome.sawClosed j) →
        (env j).1 = true) ∧
    (∀ env timeout start i f, (env i).1 = true → 0 < f →
        watchRunFrom env timeout start i f = some (WatchOutcome.sawClosed i)) ∧
    (∀ env timeout start i f, (env i).1 = false →
        timeout < (start + i) - (env i).2 → 0 < f →
        watchRunFrom env timeout start i f = some (WatchOutcome.stale i)) ∧
    (∀ env timeout start f,
        (∀ i, (start + i) - (env i).2 ≤ timeout) →
        ∀ i j, watchRunFrom env timeout start i f ≠ some (WatchOutcome.stale j)) := by
  refine ⟨?_, ?_, ?_, ?_, ?_⟩
  · intro env timeout start i f j
    induction f generalizing i with
    | zero =>
      intro h
      simp [watchRunFrom] at h
    | succ g ih =>
      intro h
      by_cases hc : (env i).1
      · simp [watchRunFrom, hc] at h
      · by_cases hs : timeout < (start + i) - (env i).2
        · simp [watchRunFrom, hc, hs] at h
          subst h
          exact ⟨by simpa using hc, hs⟩
        · simp only [watchRunFrom, hc, hs, if_false, ite_false] at h
          exact ih (i + 1) (by simpa [hc, hs] using h)
  · intro env timeout start i f j
    induction f generalizing i with
    | zero =>
      intro h
      simp [watchRunFrom] at h
    | succ g ih =>
      intro h
      by_cases hc : (env i).1
      · simp [watchRunFrom, hc] at h
        rw [← h]
        exact hc
      · by_cases hs : timeout < (start + i) - (env i).2
        · simp [watchRunFrom, hc, hs] at h
        · exact ih (i + 1) (by simpa [watchRunFrom, hc, hs] using h)
  · intro env timeout start i f hc hf
    cases f with
    | zero => exact absurd hf (by omega)
    | succ g => simp [watchRunFrom, hc]
  · intro env timeout start i f hc hs hf
    cases f with
    | zero => exact absurd hf (by omega)
    | succ g => simp [watchRunFrom, hc, hs]
  · intro env timeout start f hfresh
    induction f with
    | zero =>
      intro i j h
      simp [watchRunFrom] at h
    | succ g ih =>
      intro i j h
      by_cases hc : (env i).1
      · simp [watchRunFrom, hc] at h
      · have hns : ¬ timeout < (start + i) - (env i).2 := by
          have := hfresh i
          omega
        simp only [watchRunFrom, hc, hns, if_false, ite_false] at h
        exact ih (i + 1) j (by simpa [hc, hns] using h)

/-- Witness for C9 at concrete traces: staleness detection fires, a set
closed flag terminates the loop, and with a message every poll the
watchdog never reports staleness. -/
theorem watchdog_behavior_witness :
    watchRunFrom (fun _ => (false, 0)) 3 10 0 1 = some (WatchOutcome.stale 0) ∧
    watchRunFrom (fun _ => (true, 0)) 3 0 0 1 = some (WatchOutcome.sawClosed 0) ∧
    watchRunFrom (fun i => (false, i)) 3 0 0 5 ≠ some (WatchOutcome.stale 2) :=
  ⟨watchdog_behavior.2.2.2.1 (fun _ => (false, 0)) 3 10 0 1 rfl (by decide) (by decide),
   watchdog_behavior.2.2.1 (fun _ => (true, 0)) 3 0 0 1 rfl (by decide),
   watchdog_behavior.2.2.2.2 (fun i => (false, i)) 3 0 5 (fun i => by simp) 0 2⟩

end Snowflake
